import Mathlib

/-!
Verification of the ha-sip-voice-assistant repository against its
natural-language specification.

The development shallowly embeds the Python source:

* `app/ai/tool_handler.py`   — tool gateway with PIN verification
* `app/homeassistant/client.py` — controller REST client
* `app/config.py`            — per-caller PIN lookup
* `app/sip/client.py`        — SIP REGISTER lifecycle and digest auth
* `app/sip/rtp_session.py`   — RTP packet construction and transmit loop
* `app/bridge/audio_adapter.py` — 20 ms framing / resampling adapter

Python dictionaries are modelled as association lists in insertion order,
Python ints as `Int`/`Nat`, bytes as `List Nat` (each entry < 256), and
fallible code via `Except`/`Option`.
-/

namespace HaSip

/-- JSON-like value, the type of tool-call arguments and YAML config
fields.  `jNull` is Python `None`; `jBool` is kept separate because in
Python `bool` is a subclass of `int` (`isinstance(True, int)` is true). -/
inductive JValue where
  | jNull
  | jBool (b : Bool)
  | jInt (i : Int)
  | jStr (s : String)
  deriving Repr, DecidableEq

/-- Argument dictionaries: association lists in insertion order. -/
abbrev Args := List (String × JValue)

/-- `d.get(k)`: first binding of `k`, `none` when the key is absent. -/
def dictGet (args : Args) (k : String) : Option JValue :=
  (args.find? (fun p => p.1 == k)).map (·.2)

/-- Python truthiness of a JSON value (`if x:`). -/
def jTruthy : JValue → Bool
  | .jNull => false
  | .jBool b => b
  | .jInt i => i != 0
  | .jStr s => s != ""

/-- Python `isinstance(x, int)`; true for `bool` as well since `bool`
subclasses `int`. -/
def pyIsInt : JValue → Bool
  | .jInt _ => true
  | .jBool _ => true
  | _ => false

/-- Integer value of a Python `int` (or `bool`) object. -/
def jIntValue : JValue → Int
  | .jInt i => i
  | .jBool b => if b then 1 else 0
  | _ => 0

/-- Numeric value of a digit run. -/
def digitsVal (ds : List Char) : Nat :=
  ds.foldl (fun a c => a * 10 + (c.toNat - 48)) 0

/-- Strip leading and trailing whitespace from a character list. -/
def trimChars (cs : List Char) : List Char :=
  ((cs.dropWhile Char.isWhitespace).reverse.dropWhile Char.isWhitespace).reverse

/-- Python `int(s)` on a string: optional surrounding whitespace, an
optional sign, then a nonempty digit run; anything else raises
`ValueError` (modelled as `none`).  Numeric-literal underscores are not
modelled. -/
def pyIntOfString (s : String) : Option Int :=
  let core : List Char → Option Nat := fun ds =>
    if ds ≠ [] ∧ ds.all Char.isDigit then some (digitsVal ds) else none
  match trimChars s.toList with
  | '+' :: rest => (core rest).map Int.ofNat
  | '-' :: rest => (core rest).map (fun n => -(n : Int))
  | cs => (core cs).map Int.ofNat

/-- Python `int(x)` on a JSON value: ints/bools pass through, strings are
parsed, `None` raises `TypeError` (modelled as `none`). -/
def pyToInt : JValue → Option Int
  | .jNull => none
  | .jBool b => some (if b then 1 else 0)
  | .jInt i => some i
  | .jStr s => pyIntOfString s

/-- Python `not x` on an `Optional[int]`: true for `None` and for `0`
(the falsy integer). -/
def pyFalsyOptInt : Option Int → Bool
  | none => true
  | some i => i == 0

/-- One entry of the tool catalog (`tools.yaml`), as consumed by
`ToolHandler`: `requires_pin` flag, `ha_service` route string and the
declared parameter names (`parameters` keys). -/
structure ToolConfig where
  requiresPin : Bool
  haService : Option String
  parameters : List String
  deriving Repr, DecidableEq

/-- The REST POST issued by `HomeAssistantClient.call_service`. -/
structure RestCall where
  url : String
  body : Args
  deriving Repr, DecidableEq

/-- `Config.get_pin` (config.py lines 160-176), given the result of the
caller-profile lookup: skip when the profile is missing or empty
(`if caller_config:` is falsy on an empty dict), skip a `pin` field that
is YAML null or the literal string `"null"`, then coerce with `int(...)`
returning `None` on failure. -/
def getPin (callerCfg : Option Args) : Option Int :=
  match callerCfg with
  | none => none
  | some cfg =>
    if cfg = [] then none
    else
      match dictGet cfg "pin" with
      | none => none
      | some v =>
        if v = .jNull then none
        else if v = .jStr "null" then none
        else pyToInt v

/-- Split a character list at the first occurrence of `'.'`; `none`
when there is no dot. -/
def splitAtFirstDot : List Char → Option (List Char × List Char)
  | [] => none
  | c :: rest =>
    if c = '.' then some ([], rest)
    else (splitAtFirstDot rest).map (fun p => (c :: p.1, p.2))

/-- `ha_service.split(".", 1)` preceded by the `"." not in ha_service`
check of `ToolHandler._execute_tool`. -/
def splitService (s : String) : Option (String × String) :=
  (splitAtFirstDot s.toList).map (fun p => (String.mk p.1, String.mk p.2))

/-- `HomeAssistantClient.call_service` (homeassistant/client.py lines
36-68): build the route URL and the JSON body; `entity_id` is added to
the body only when truthy (`if entity_id:`). -/
def callService (baseUrl domain service : String) (entityId : Option JValue)
    (serviceData : Args) : RestCall :=
  { url := baseUrl ++ "/services/" ++ domain ++ "/" ++ service
    body := serviceData ++
      (match entityId with
       | some v => if jTruthy v then [("entity_id", v)] else []
       | none => []) }

/-- `ToolHandler._execute_tool` (tool_handler.py lines 126-177) up to the
REST invocation: validate and split `ha_service`, keep only arguments
whose keys are neither `pin` nor `entity_id` and are declared in the
tool's parameter schema, and null out `entity_id` for the `script`
domain before handing everything to `call_service`. -/
def executeTool (baseUrl : String) (tc : ToolConfig) (args : Args) :
    Except String RestCall :=
  match tc.haService with
  | none => .error "Tool configuration missing ha_service"
  | some hs =>
    match splitService hs with
    | none => .error ("Invalid ha_service format: " ++ hs)
    | some (domain, service) =>
      let entityId0 := dictGet args "entity_id"
      let serviceData := args.filter
        (fun p => p.1 != "pin" && p.1 != "entity_id" && tc.parameters.contains p.1)
      let entityId := if domain = "script" then none else entityId0
      .ok (callService baseUrl domain service entityId serviceData)

/-- The PIN gate of `ToolHandler.handle_tool_call` (tool_handler.py lines
63-111), run only when the tool requires a PIN.  On success it returns
the arguments with the `pin` key popped; on failure the error code of
the structured failure response. -/
def pinGate (expectedPin : Option Int) (args : Args) : Except String Args :=
  let providedPin : Option JValue :=
    match dictGet args "pin" with
    | some .jNull => none
    | some v => some v
    | none => none
  match providedPin with
  | none => .error "PIN_REQUIRED"
  | some v =>
    let coerced : Option Int := if pyIsInt v then some (jIntValue v) else pyToInt v
    match coerced with
    | none => .error "PIN_INCORRECT"
    | some p =>
      if pyFalsyOptInt expectedPin then .error "PIN_NOT_CONFIGURED"
      else if p ≠ expectedPin.getD 0 then .error "PIN_INCORRECT"
      else .ok (args.filter (fun q => q.1 != "pin"))

/-- Result of `ToolHandler.handle_tool_call`, together with the REST call
it issued (if any), so that "no REST call issued" is expressible. -/
structure ToolResponse where
  success : Bool
  error : Option String
  restCall : Option RestCall
  deriving Repr, DecidableEq

/-- `ToolHandler.handle_tool_call` (tool_handler.py lines 27-124):
unknown-tool check, PIN gate for `requires_pin` tools, then
`_execute_tool`, whose exceptions become structured failures. -/
def handleToolCall (getToolConfig : String → Option ToolConfig)
    (baseUrl : String) (expectedPin : Option Int)
    (toolName : String) (args : Args) : ToolResponse :=
  match getToolConfig toolName with
  | none => { success := false, error := some ("Unknown tool: " ++ toolName), restCall := none }
  | some tc =>
    let gated : Except String Args :=
      if tc.requiresPin then pinGate expectedPin args else .ok args
    match gated with
    | .error e => { success := false, error := some e, restCall := none }
    | .ok args2 =>
      match executeTool baseUrl tc args2 with
      | .ok rc => { success := true, error := none, restCall := some rc }
      | .error e => { success := false, error := some e, restCall := none }

/-! ### Helper lemmas about dictionaries -/

theorem dictGet_filter_of_ne (f : String × JValue → Bool) (k : String)
    (h : ∀ p : String × JValue, f p = true → p.1 ≠ k) (args : Args) :
    dictGet (args.filter f) k = none := by
  simp only [dictGet, Option.map_eq_none', List.find?_eq_none, List.mem_filter]
  rintro ⟨a, b⟩ ⟨_, hf⟩
  simpa using h _ hf

theorem dictGet_append_none {l₁ l₂ : Args} {k : String}
    (h₁ : dictGet l₁ k = none) (h₂ : dictGet l₂ k = none) :
    dictGet (l₁ ++ l₂) k = none := by
  simp only [dictGet, Option.map_eq_none', List.find?_eq_none] at *
  intro x hx
  rcases List.mem_append.mp hx with hm | hm
  · exact h₁ x hm
  · exact h₂ x hm

/-- Every REST call produced by `_execute_tool` has a `pin`-free body:
the service-data filter drops `pin` and only `entity_id` is ever
re-added. -/
theorem executeTool_body_pin_free (baseUrl : String) (tc : ToolConfig)
    (args : Args) (rc : RestCall) (h : executeTool baseUrl tc args = .ok rc) :
    dictGet rc.body "pin" = none := by
  unfold executeTool at h
  rcases hhs : tc.haService with _ | hs
  · simp only [hhs] at h
    exact absurd h (by simp)
  · simp only [hhs] at h
    rcases hsp : splitService hs with _ | ⟨domain, service⟩
    · simp only [hsp] at h
      exact absurd h (by simp)
    · simp only [hsp, Except.ok.injEq] at h
      subst h
      apply dictGet_append_none
      · exact dictGet_filter_of_ne _ _ (by intro p hp; simp at hp; exact hp.1.1) args
      · rcases hei : (if domain = "script" then none else dictGet args "entity_id") with _ | v
        · simp [callService, hei, dictGet]
        · simp only [callService, hei]
          by_cases ht : jTruthy v <;> simp [ht, dictGet]

/-! ### C1 — PIN error ladder -/

/-- **C1** (amended).  For every invocation of a PIN-required tool the
gateway walks the error ladder in order: `pin` absent ⇒
`PIN_REQUIRED`; supplied pin not coercible to an integer ⇒
`PIN_INCORRECT`; no code configured for the caller **or the configured
code equal to 0** (Python falsiness of `expected_pin`) ⇒
`PIN_NOT_CONFIGURED`; integer comparison against a configured nonzero
code failing ⇒ `PIN_INCORRECT`.  In each failure case the response is
`success:false` with the given error and no REST call is issued. -/
theorem handleToolCall_pin_ladder (g : String → Option ToolConfig)
    (baseUrl : String) (expectedPin : Option Int) (name : String)
    (args : Args) (tc : ToolConfig)
    (hg : g name = some tc) (hp : tc.requiresPin = true) :
    (dictGet args "pin" = none →
      handleToolCall g baseUrl expectedPin name args =
        ⟨false, some "PIN_REQUIRED", none⟩) ∧
    (∀ v, dictGet args "pin" = some v → v ≠ .jNull →
      (if pyIsInt v then some (jIntValue v) else pyToInt v) = none →
      handleToolCall g baseUrl expectedPin name args =
        ⟨false, some "PIN_INCORRECT", none⟩) ∧
    (∀ v p, dictGet args "pin" = some v → v ≠ .jNull →
      (if pyIsInt v then some (jIntValue v) else pyToInt v) = some p →
      (expectedPin = none ∨ expectedPin = some 0) →
      handleToolCall g baseUrl expectedPin name args =
        ⟨false, some "PIN_NOT_CONFIGURED", none⟩) ∧
    (∀ v p e, dictGet args "pin" = some v → v ≠ .jNull →
      (if pyIsInt v then some (jIntValue v) else pyToInt v) = some p →
      expectedPin = some e → e ≠ 0 → p ≠ e →
      handleToolCall g baseUrl expectedPin name args =
        ⟨false, some "PIN_INCORRECT", none⟩) := by
  refine ⟨?_, ?_, ?_, ?_⟩
  · intro hpin
    simp [handleToolCall, hg, hp, pinGate, hpin]
  · intro v hpin hnn hco
    have hv : (match dictGet args "pin" with
        | some JValue.jNull => none
        | some v => some v
        | none => none) = some v := by
      rw [hpin]; cases v <;> simp_all
    simp [handleToolCall, hg, hp, pinGate, hv, hco]
  · intro v p hpin hnn hco hfa
    have hv : (match dictGet args "pin" with
        | some JValue.jNull => none
        | some v => some v
        | none => none) = some v := by
      rw [hpin]; cases v <;> simp_all
    have hfalsy : pyFalsyOptInt expectedPin = true := by
      rcases hfa with h | h <;> simp [h, pyFalsyOptInt]
    simp [handleToolCall, hg, hp, pinGate, hv, hco, hfalsy]
  · intro v p e hpin hnn hco he hne hpe
    have hv : (match dictGet args "pin" with
        | some JValue.jNull => none
        | some v => some v
        | none => none) = some v := by
      rw [hpin]; cases v <;> simp_all
    simp [handleToolCall, hg, hp, pinGate, hv, hco, he, pyFalsyOptInt, hne, hpe]

/-- Witness for C1: a PIN-required invocation without a `pin` argument
fails with `PIN_REQUIRED` and issues no REST call. -/
theorem handleToolCall_pin_ladder_witness :
    handleToolCall (fun _ => some ⟨true, some "script.open_door", []⟩)
      "http://ha/api" (some 1234) "open_door" [] =
      ⟨false, some "PIN_REQUIRED", none⟩ :=
  (handleToolCall_pin_ladder (fun _ => some ⟨true, some "script.open_door", []⟩)
    "http://ha/api" (some 1234) "open_door" [] _ rfl rfl).1 rfl

/-- Counterexample to C1 as stated: with a configured code of 0 and a
supplied pin of 5 the integer comparison fails, yet the gateway answers
`PIN_NOT_CONFIGURED`, not the `PIN_INCORRECT` the claim requires. -/
theorem handleToolCall_zero_pin_cex :
    handleToolCall (fun _ => some ⟨true, some "script.open_door", []⟩)
      "http://ha/api" (some 0) "open_door" [("pin", .jInt 5)] =
      ⟨false, some "PIN_NOT_CONFIGURED", none⟩ ∧
    (some "PIN_NOT_CONFIGURED" : Option String) ≠ some "PIN_INCORRECT" := by
  constructor
  · rfl
  · simp

/-! ### C2 — pin stripped before forwarding -/

/-- Any arguments accepted by the PIN gate are the original arguments
with the `pin` key popped. -/
theorem pinGate_ok_eq (e : Option Int) (a a2 : Args)
    (h : pinGate e a = .ok a2) :
    a2 = a.filter (fun q => q.1 != "pin") := by
  simp only [pinGate] at h
  split at h
  · cases h
  · split at h
    · cases h
    · split at h
      · cases h
      · split at h
        · cases h
        · injection h with h
          exact h.symm

/-- **C2.**  For every invocation of a PIN-required tool that reaches
execution, the gate hands `_execute_tool` the arguments with the `pin`
key removed, and the JSON body forwarded to the controller REST route
contains no `pin` key. -/
theorem handleToolCall_pin_stripped (g : String → Option ToolConfig)
    (baseUrl : String) (expectedPin : Option Int) (name : String)
    (args : Args) (tc : ToolConfig) (rc : RestCall)
    (hg : g name = some tc) (hp : tc.requiresPin = true)
    (hrc : (handleToolCall g baseUrl expectedPin name args).restCall = some rc) :
    pinGate expectedPin args = .ok (args.filter (fun q => q.1 != "pin")) ∧
    dictGet (args.filter (fun q => q.1 != "pin")) "pin" = none ∧
    dictGet rc.body "pin" = none := by
  simp only [handleToolCall, hg, hp, if_true] at hrc
  rcases hgate : pinGate expectedPin args with e | args2
  · rw [hgate] at hrc; cases hrc
  · rw [hgate] at hrc
    have hargs2 := pinGate_ok_eq _ _ _ hgate
    subst hargs2
    refine ⟨rfl, ?_, ?_⟩
    · exact dictGet_filter_of_ne _ _ (by intro p hp'; simpa using hp') args
    · dsimp only at hrc
      rcases hex : executeTool baseUrl tc (args.filter (fun q => q.1 != "pin"))
        with e | rc2
      · rw [hex] at hrc; cases hrc
      · rw [hex] at hrc
        simp only [Option.some.injEq] at hrc
        subst hrc
        exact executeTool_body_pin_free _ _ _ _ hex

/-- Shared concrete tool configuration for C2's witness. -/
def doorTool : ToolConfig := ⟨true, some "script.open_door", ["x"]⟩

/-- Shared concrete arguments for C2's witness. -/
def doorArgs : Args := [("pin", .jInt 1234), ("x", .jInt 5)]

/-- Witness for C2: a correct-PIN invocation executes with the `pin`
argument popped and the forwarded body is `pin`-free. -/
theorem handleToolCall_pin_stripped_witness :
    pinGate (some 1234) doorArgs = .ok (doorArgs.filter (fun q => q.1 != "pin")) ∧
    dictGet (doorArgs.filter (fun q => q.1 != "pin")) "pin" = none ∧
    dictGet (RestCall.mk "http://ha/api/services/script/open_door"
      [("x", .jInt 5)]).body "pin" = none :=
  handleToolCall_pin_stripped (fun _ => some doorTool) "http://ha/api"
    (some 1234) "open_door" doorArgs doorTool
    ⟨"http://ha/api/services/script/open_door", [("x", .jInt 5)]⟩
    rfl rfl (by decide)

/-! ### Dictionary lookup characterizations for C9 -/

theorem dictGet_cons (p : String × JValue) (l : Args) (k : String) :
    dictGet (p :: l) k = if p.1 == k then some p.2 else dictGet l k := by
  simp only [dictGet, List.find?]
  split <;> simp_all

theorem dictGet_append (l₁ l₂ : Args) (k : String) :
    dictGet (l₁ ++ l₂) k =
      match dictGet l₁ k with
      | some v => some v
      | none => dictGet l₂ k := by
  induction l₁ with
  | nil => simp [dictGet]
  | cons hd tl ih =>
    rw [List.cons_append, dictGet_cons, dictGet_cons]
    by_cases h : hd.1 == k <;> simp [h, ih]

theorem dictGet_append_someL {l₁ : Args} {k : String} {v : JValue}
    (h : dictGet l₁ k = some v) (l₂ : Args) :
    dictGet (l₁ ++ l₂) k = some v := by
  rw [dictGet_append, h]

theorem dictGet_append_noneL {l₁ : Args} {k : String}
    (h : dictGet l₁ k = none) (l₂ : Args) :
    dictGet (l₁ ++ l₂) k = dictGet l₂ k := by
  rw [dictGet_append, h]

/-- Lookup in a key-filtered dictionary. -/
theorem dictGet_filter_key (keyOk : String → Bool) (args : Args) (k : String) :
    dictGet (args.filter (fun p => keyOk p.1)) k =
      if keyOk k then dictGet args k else none := by
  induction args with
  | nil => simp [dictGet]
  | cons hd tl ih =>
    rw [List.filter_cons]
    by_cases hk : keyOk hd.1
    · rw [if_pos hk, dictGet_cons, dictGet_cons]
      by_cases he : hd.1 = k
      · subst he; simp [hk]
      · have : (hd.1 == k) = false := by simpa using he
        simp [this, ih]
    · rw [if_neg hk, ih]
      by_cases he : hd.1 = k
      · subst he
        simp only [Bool.not_eq_true] at hk
        rw [hk]
        simp [dictGet_cons]
      · have : (hd.1 == k) = false := by simpa using he
        rw [dictGet_cons, this]
        simp

/-! ### C9 — the forwarded JSON body -/

/-- **C9** (amended).  For every successful tool execution the POST goes
to `<controller-base>/services/<domain>/<service>` with `domain` and
`service` from splitting `ha_service` at the first dot, and the JSON
body holds exactly the arguments that are neither `pin` nor `entity_id`
**and are declared in the tool's parameter schema**, plus the supplied
`entity_id` when it is truthy and the domain is not `script`; for the
`script` domain `entity_id` is always suppressed. -/
theorem executeTool_forwarded_body (baseUrl : String) (tc : ToolConfig)
    (args : Args) (hs domain service : String) (rc : RestCall)
    (hhs : tc.haService = some hs)
    (hsplit : splitService hs = some (domain, service))
    (hexec : executeTool baseUrl tc args = .ok rc) :
    rc.url = baseUrl ++ "/services/" ++ domain ++ "/" ++ service ∧
    (∀ k, k ≠ "entity_id" →
      dictGet rc.body k =
        if k != "pin" && tc.parameters.contains k then dictGet args k else none) ∧
    dictGet rc.body "entity_id" =
      (if domain = "script" then none
       else match dictGet args "entity_id" with
            | some v => if jTruthy v then some v else none
            | none => none) := by
  simp only [executeTool, hhs, hsplit, Except.ok.injEq] at hexec
  subst hexec
  refine ⟨rfl, ?_, ?_⟩
  · intro k hk
    have hk' : (k != "entity_id") = true := by simpa using hk
    have htail : dictGet
        (match (if domain = "script" then none else dictGet args "entity_id") with
         | some v => if jTruthy v = true then [("entity_id", v)] else []
         | none => ([] : Args)) k = none := by
      rcases (if domain = "script" then none else dictGet args "entity_id") with _ | v
      · simp [dictGet]
      · by_cases ht : jTruthy v <;> simp [ht, dictGet_cons, dictGet, Ne.symm hk]
    have hfk : dictGet (args.filter
        (fun p => p.1 != "pin" && p.1 != "entity_id" && tc.parameters.contains p.1)) k =
        if k != "pin" && k != "entity_id" && tc.parameters.contains k
        then dictGet args k else none :=
      dictGet_filter_key
        (fun a => a != "pin" && a != "entity_id" && tc.parameters.contains a) args k
    rw [callService.eq_def]
    dsimp only
    by_cases hok : (k != "pin" && k != "entity_id" && tc.parameters.contains k) = true
    · rw [if_pos hok] at hfk
      simp only [Bool.and_eq_true] at hok
      rcases hv : dictGet args k with _ | v
      · rw [hv] at hfk
        rw [dictGet_append_noneL hfk, htail]
        simp
      · rw [hv] at hfk
        rw [dictGet_append_someL hfk]
        have hm : k ∈ tc.parameters := by simpa using hok.2
        have hc : (k != "pin" && tc.parameters.contains k) = true := by
          simp [hok.1.1, hm]
        rw [if_pos hc]
    · have hok2 : (k != "pin" && k != "entity_id" && tc.parameters.contains k)
          = false := by simpa using hok
      rw [hok2] at hfk
      simp only [Bool.false_eq_true, if_false] at hfk
      rw [dictGet_append_noneL hfk, htail]
      have hc : (k != "pin" && tc.parameters.contains k) = false := by
        rw [hk'] at hok2
        simpa using hok2
      rw [hc]
      simp
  · have hfk : dictGet (args.filter
        (fun p => p.1 != "pin" && p.1 != "entity_id" && tc.parameters.contains p.1))
        "entity_id" = none :=
      dictGet_filter_of_ne _ _ (by intro p hp; simp at hp; exact hp.1.2) args
    rw [callService.eq_def]
    dsimp only
    rw [dictGet_append_noneL hfk]
    by_cases hd : domain = "script"
    · simp [hd, dictGet]
    · simp only [hd, if_false]
      rcases hei : dictGet args "entity_id" with _ | v
      · simp [dictGet]
      · by_cases ht : jTruthy v <;> simp [ht, dictGet_cons, dictGet]

/-- Shared concrete tool configuration for C9's witness. -/
def lightTool : ToolConfig := ⟨false, some "light.turn_on", ["brightness"]⟩

/-- Shared concrete arguments for C9's witness. -/
def lightArgs : Args :=
  [("brightness", .jInt 100), ("mood", .jStr "warm"), ("entity_id", .jStr "light.sofa")]

/-- Witness for C9: a concrete non-script execution; the declared
`brightness` argument is forwarded and the truthy `entity_id` is
re-added. -/
theorem executeTool_forwarded_body_witness :
    dictGet (RestCall.mk "http://ha/api/services/light/turn_on"
        [("brightness", .jInt 100), ("entity_id", .jStr "light.sofa")]).body
        "brightness" =
      (if ("brightness" != "pin" && lightTool.parameters.contains "brightness")
        then dictGet lightArgs "brightness" else none) ∧
    dictGet (RestCall.mk "http://ha/api/services/light/turn_on"
        [("brightness", .jInt 100), ("entity_id", .jStr "light.sofa")]).body
        "entity_id" =
      (if ("light" : String) = "script" then none
       else match dictGet lightArgs "entity_id" with
            | some v => if jTruthy v then some v else none
            | none => none) := by
  have h := executeTool_forwarded_body "http://ha/api" lightTool lightArgs
    "light.turn_on" "light" "turn_on"
    ⟨"http://ha/api/services/light/turn_on",
      [("brightness", .jInt 100), ("entity_id", .jStr "light.sofa")]⟩
    rfl (by decide) rfl
  exact ⟨h.2.1 "brightness" (by decide), h.2.2⟩

/-- The body C9 claims verbatim: exactly the remaining arguments after
pin removal, with `entity_id` suppressed for the `script` domain. -/
def c9ClaimedBody (domain : String) (args : Args) : Args :=
  if domain = "script" then args.filter (fun p => p.1 != "pin" && p.1 != "entity_id")
  else args.filter (fun p => p.1 != "pin")

/-- Counterexample to C9 as stated: an argument whose key is not in the
tool's declared parameter schema is dropped from the POSTed body, so
the body is not "exactly the remaining arguments after pin removal". -/
theorem executeTool_forwarded_body_cex :
    executeTool "http://ha/api" ⟨false, some "light.turn_on", []⟩
        [("brightness", .jInt 100)] =
      .ok ⟨"http://ha/api/services/light/turn_on", []⟩ ∧
    c9ClaimedBody "light" [("brightness", .jInt 100)] =
      [("brightness", .jInt 100)] ∧
    ([] : Args) ≠ [("brightness", .jInt 100)] :=
  ⟨rfl, by decide, by decide⟩

/-! ### C10 — malformed configured PIN -/

/-- **C10** (amended).  If the `pin` configured in a caller's profile is
a string that cannot be parsed as an integer — a non-numeric string, or
the literal string `"null"` — then `get_pin` returns `None`, and every
authentication-gated invocation by that caller **that supplies a
coercible pin** returns `PIN_NOT_CONFIGURED`; the malformed configured
code is never compared against the supplied pin (the gate answers
before any comparison).  Invocations without a pin still answer
`PIN_REQUIRED` and uncoercible supplied pins `PIN_INCORRECT`. -/
theorem getPin_malformed (cfg : Args) (s : String)
    (hpin : dictGet cfg "pin" = some (.jStr s))
    (hbad : s = "null" ∨ pyIntOfString s = none) :
    getPin (some cfg) = none ∧
    ∀ (g : String → Option ToolConfig) (baseUrl name : String) (args : Args)
      (tc : ToolConfig) (v : JValue) (p : Int),
      g name = some tc → tc.requiresPin = true →
      dictGet args "pin" = some v → v ≠ .jNull →
      (if pyIsInt v then some (jIntValue v) else pyToInt v) = some p →
      handleToolCall g baseUrl (getPin (some cfg)) name args =
        ⟨false, some "PIN_NOT_CONFIGURED", none⟩ := by
  have hne : cfg ≠ [] := by
    intro h
    rw [h] at hpin
    simp [dictGet] at hpin
  have hnone : getPin (some cfg) = none := by
    simp only [getPin, if_neg hne, hpin]
    rcases hbad with hb | hb
    · simp [hb]
    · by_cases hn : JValue.jStr s = JValue.jStr "null"
      · simp [hn]
      · simp [hn, pyToInt, hb]
  refine ⟨hnone, ?_⟩
  intro g baseUrl name args tc v p hg hp hpv hnn hco
  rw [hnone]
  have hv : (match dictGet args "pin" with
      | some JValue.jNull => none
      | some v => some v
      | none => none) = some v := by
    rw [hpv]; cases v <;> simp_all
  simp [handleToolCall, hg, hp, pinGate, hv, hco, pyFalsyOptInt]

/-- Shared malformed caller profile for C10's witness. -/
def badPinProfile : Args := [("name", .jStr "Alice"), ("pin", .jStr "abcd")]

/-- Witness for C10: a profile whose configured pin is the non-numeric
string `"abcd"`; `get_pin` yields `None` and a gated invocation that
supplies the integer pin 1234 answers `PIN_NOT_CONFIGURED`. -/
theorem getPin_malformed_witness :
    getPin (some badPinProfile) = none ∧
    handleToolCall (fun _ => some ⟨true, some "script.open_door", []⟩)
        "http://ha/api" (getPin (some badPinProfile)) "open_door"
        [("pin", .jInt 1234)] =
      ⟨false, some "PIN_NOT_CONFIGURED", none⟩ := by
  have h := getPin_malformed badPinProfile "abcd" (by decide) (Or.inr (by decide))
  exact ⟨h.1, h.2 _ "http://ha/api" "open_door" [("pin", .jInt 1234)]
    ⟨true, some "script.open_door", []⟩ (.jInt 1234) 1234
    rfl rfl rfl (by simp) rfl⟩

/-- Counterexample to C10 as stated: with the same malformed profile, an
invocation that supplies no pin at all answers `PIN_REQUIRED`, not the
`PIN_NOT_CONFIGURED` the claim promises for "every" gated invocation. -/
theorem getPin_malformed_cex :
    getPin (some [("pin", .jStr "abcd")]) = none ∧
    handleToolCall (fun _ => some ⟨true, some "script.open_door", []⟩)
        "http://ha/api" (getPin (some [("pin", .jStr "abcd")])) "open_door" [] =
      ⟨false, some "PIN_REQUIRED", none⟩ ∧
    (⟨false, some "PIN_REQUIRED", none⟩ : ToolResponse) ≠
      ⟨false, some "PIN_NOT_CONFIGURED", none⟩ := by
  refine ⟨by decide, by decide, by decide⟩

/-! ### RTP session (`app/sip/rtp_session.py`)

Bytes are `Nat`s below 256; big-endian packing of `struct.pack`'s
`H`/`I` fields is spelled with `/` and `%`.  Python's `& 0xFFFF` is
written `% 65536`, `& 0x7F` is `% 128`, and `0x80 | (pt & 0x7F)` is
`128 + pt % 128` (the high bit is disjoint from the low seven).
`struct.pack("!I", ts)` raises once `ts ≥ 2^32`; the packing below
wraps instead, and the timestamp claims are stated within range. -/

/-- Big-endian 16-bit packing (`struct.pack "!H"`). -/
def packU16 (n : Nat) : List Nat := [n / 256 % 256, n % 256]

/-- Big-endian 32-bit packing (`struct.pack "!I"`, wrapping). -/
def packU32 (n : Nat) : List Nat :=
  [n / 16777216 % 256, n / 65536 % 256, n / 256 % 256, n % 256]

/-- The 12-byte RTP header built by `RTPSession._send_rtp_packet`:
`struct.pack("!BBHII", 0x80, 0x80 | (pt & 0x7F), seq & 0xFFFF, ts, ssrc)`. -/
def rtpHeader (payloadType seq ts ssrc : Nat) : List Nat :=
  [128, 128 + payloadType % 128] ++ packU16 (seq % 65536) ++
    packU32 ts ++ packU32 ssrc

/-- RTP header field: version (first byte, bits 7-6). -/
def rtpVersion (h : List Nat) : Nat := h.getD 0 0 / 64 % 4

/-- RTP header field: padding flag (first byte, bit 5). -/
def rtpPadding (h : List Nat) : Nat := h.getD 0 0 / 32 % 2

/-- RTP header field: extension flag (first byte, bit 4). -/
def rtpExtensionFlag (h : List Nat) : Nat := h.getD 0 0 / 16 % 2

/-- RTP header field: contributing-source count (first byte, bits 3-0). -/
def rtpCsrcCount (h : List Nat) : Nat := h.getD 0 0 % 16

/-- RTP header field: marker flag (second byte, bit 7). -/
def rtpMarker (h : List Nat) : Nat := h.getD 1 0 / 128 % 2

/-- RTP header field: payload type (second byte, bits 6-0). -/
def rtpPayloadTypeField (h : List Nat) : Nat := h.getD 1 0 % 128

/-- RTP header field: 16-bit sequence number (bytes 2-3). -/
def rtpSeqField (h : List Nat) : Nat := h.getD 2 0 * 256 + h.getD 3 0

/-- RTP header field: 32-bit timestamp (bytes 4-7). -/
def rtpTsField (h : List Nat) : Nat :=
  ((h.getD 4 0 * 256 + h.getD 5 0) * 256 + h.getD 6 0) * 256 + h.getD 7 0

/-- Mutable counters of `RTPSession`. -/
structure RTPState where
  sequenceNumber : Nat
  timestamp : Nat
  deriving Repr, DecidableEq

/-- One RTP packet on the wire: header bytes followed by payload bytes. -/
structure RTPPacket where
  header : List Nat
  payload : List Nat
  deriving Repr, DecidableEq

/-- The timestamp increment of `_send_rtp_packet`: 160 for PCMU payload
types 0 and 121 (G.711 is always 8 kHz), otherwise
`sample_rate * 20 // 1000`. -/
def samplesPer20ms (payloadType sampleRate : Nat) : Nat :=
  if payloadType = 0 ∨ payloadType = 121 then 160
  else sampleRate * 20 / 1000

/-- `RTPSession._send_rtp_packet` (rtp_session.py lines 149-176): build
and send one packet, then advance the sequence number modulo 2^16 and
the timestamp by `samplesPer20ms`. -/
def sendRtpPacket (payloadType sampleRate ssrc : Nat) (st : RTPState)
    (payload : List Nat) : RTPPacket × RTPState :=
  ({ header := rtpHeader payloadType st.sequenceNumber st.timestamp ssrc
     payload := payload },
   { sequenceNumber := (st.sequenceNumber + 1) % 65536
     timestamp := st.timestamp + samplesPer20ms payloadType sampleRate })

/-- `BYTES_PER_FRAME = sample_rate * 20 // 1000`. -/
def bytesPerFrame (sampleRate : Nat) : Nat := sampleRate * 20 / 1000

/-- One iteration of `RTPSession._send_loop` (rtp_session.py lines
119-147): a dequeued payload, or an all-zero silence frame when the
20 ms wait timed out. -/
def sendLoopStep (payloadType sampleRate ssrc : Nat) (st : RTPState)
    (dequeued : Option (List Nat)) : RTPPacket × RTPState :=
  let audio := match dequeued with
    | some a => a
    | none => List.replicate (bytesPerFrame sampleRate) 0
  sendRtpPacket payloadType sampleRate ssrc st audio

/-- The transmit loop over a list of dequeue outcomes, collecting the
packets it sends. -/
def runSendLoop (payloadType sampleRate ssrc : Nat) (st : RTPState) :
    List (Option (List Nat)) → List RTPPacket
  | [] => []
  | inp :: rest =>
    let step := sendLoopStep payloadType sampleRate ssrc st inp
    step.1 :: runSendLoop payloadType sampleRate ssrc step.2 rest

theorem unpack16 (x : Nat) (hx : x < 65536) :
    (x / 256 % 256) * 256 + x % 256 = x := by omega

theorem unpack32 (y : Nat) (hy : y < 4294967296) :
    ((y / 16777216 % 256 * 256 + y / 65536 % 256) * 256 + y / 256 % 256) * 256
      + y % 256 = y := by omega

theorem rtpSeqField_header (payloadType seq ts ssrc : Nat) :
    rtpSeqField (rtpHeader payloadType seq ts ssrc) = seq % 65536 := by
  simp only [rtpHeader, packU16, packU32, rtpSeqField, List.append_assoc,
    List.cons_append, List.nil_append, List.getD, List.get?]
  exact unpack16 (seq % 65536) (Nat.mod_lt _ (by norm_num))

theorem rtpTsField_header (payloadType seq ts ssrc : Nat) :
    rtpTsField (rtpHeader payloadType seq ts ssrc) = ts % 4294967296 := by
  simp only [rtpHeader, packU16, packU32, rtpTsField, List.append_assoc,
    List.cons_append, List.nil_append, List.getD, List.get?, Option.getD_some]
  omega

/-- Position `i` of the transmit loop's output: the packet carries
sequence field `(seq₀ + i) % 2^16` and timestamp field
`(ts₀ + 160·i) % 2^32` when the payload type is PCMU (0 or 121). -/
theorem runSendLoop_fields (payloadType sampleRate ssrc : Nat)
    (hpt : payloadType = 0 ∨ payloadType = 121) :
    ∀ (inputs : List (Option (List Nat))) (st : RTPState) (i : Nat),
      i < inputs.length →
      ∃ pkt, (runSendLoop payloadType sampleRate ssrc st inputs)[i]? = some pkt ∧
        rtpSeqField pkt.header = (st.sequenceNumber + i) % 65536 ∧
        rtpTsField pkt.header = (st.timestamp + 160 * i) % 4294967296 := by
  intro inputs
  induction inputs with
  | nil => intro st i hi; simp at hi
  | cons inp rest ih =>
    intro st i hi
    have hsamples : samplesPer20ms payloadType sampleRate = 160 := by
      simp [samplesPer20ms, hpt]
    cases i with
    | zero =>
      refine ⟨(sendLoopStep payloadType sampleRate ssrc st inp).1, ?_, ?_, ?_⟩
      · simp [runSendLoop]
      · simp [sendLoopStep, sendRtpPacket, rtpSeqField_header]
      · simp [sendLoopStep, sendRtpPacket, rtpTsField_header]
    | succ j =>
      have hj : j < rest.length := by simpa using hi
      obtain ⟨pkt, hget, hseq, hts⟩ :=
        ih { sequenceNumber := (st.sequenceNumber + 1) % 65536
             timestamp := st.timestamp + samplesPer20ms payloadType sampleRate } j hj
      refine ⟨pkt, ?_, ?_, ?_⟩
      · simpa [runSendLoop, sendLoopStep, sendRtpPacket] using hget
      · rw [hseq]
        simp only
        rw [Nat.mod_add_mod]
        ring_nf
      · rw [hts, hsamples]
        ring_nf

/-- **C7.**  For a PCMU-negotiated RTP session (payload type 0 or 121),
consecutive packets emitted by the transmit loop — whether their payload
was dequeued audio or substituted silence — carry sequence-number
fields that differ by exactly 1 modulo 2^16 and timestamp fields that
differ by exactly 160 (within the 32-bit range in which
`struct.pack("!I", …)` does not raise). -/
theorem rtp_consecutive_seq_ts (payloadType sampleRate ssrc : Nat)
    (st : RTPState) (inputs : List (Option (List Nat))) (i : Nat)
    (pkt₁ pkt₂ : RTPPacket)
    (hpt : payloadType = 0 ∨ payloadType = 121)
    (h1 : (runSendLoop payloadType sampleRate ssrc st inputs)[i]? = some pkt₁)
    (h2 : (runSendLoop payloadType sampleRate ssrc st inputs)[i + 1]? = some pkt₂)
    (hts : st.timestamp + 160 * (i + 1) < 4294967296) :
    rtpSeqField pkt₂.header = (rtpSeqField pkt₁.header + 1) % 65536 ∧
    rtpTsField pkt₂.header = rtpTsField pkt₁.header + 160 := by
  have hlen : ∀ (st' : RTPState) (l : List (Option (List Nat))),
      (runSendLoop payloadType sampleRate ssrc st' l).length = l.length := by
    intro st' l
    induction l generalizing st' with
    | nil => rfl
    | cons a as ih => simp [runSendLoop, ih]
  have hi2 : i + 1 < inputs.length := by
    have := List.getElem?_eq_some_iff.mp h2
    obtain ⟨hlt, -⟩ := this
    rwa [hlen] at hlt
  have hi1 : i < inputs.length := by omega
  obtain ⟨p1, hg1, hs1, ht1⟩ := runSendLoop_fields payloadType sampleRate ssrc hpt inputs st i hi1
  obtain ⟨p2, hg2, hs2, ht2⟩ := runSendLoop_fields payloadType sampleRate ssrc hpt inputs st (i + 1) hi2
  rw [h1] at hg1
  rw [h2] at hg2
  cases hg1
  cases hg2
  constructor
  · rw [hs1, hs2, Nat.mod_add_mod]
    ring_nf
  · rw [ht1, ht2, Nat.mod_eq_of_lt (by omega), Nat.mod_eq_of_lt (by omega)]
    ring

/-- Witness for C7: two loop iterations (one dequeued two-byte payload,
one silence substitution) at payload type 0. -/
theorem rtp_consecutive_seq_ts_witness :
    rtpSeqField (rtpHeader 0 1 160 77) = (rtpSeqField (rtpHeader 0 0 0 77) + 1) % 65536 ∧
    rtpTsField (rtpHeader 0 1 160 77) = rtpTsField (rtpHeader 0 0 0 77) + 160 :=
  rtp_consecutive_seq_ts 0 8000 77 ⟨0, 0⟩ [some [1, 2], none] 0
    ⟨rtpHeader 0 0 0 77, [1, 2]⟩
    ⟨rtpHeader 0 1 160 77, List.replicate (bytesPerFrame 8000) 0⟩
    (Or.inl rfl) (by decide) (by decide) (by decide)

/-- Concrete header at the C3 failing input: payload type 0, sequence 5,
timestamp 160, synchronization source 1234. -/
def bugHeader : List Nat := rtpHeader 0 5 160 1234

/-- **C3** (code bug).  The header built by `_send_rtp_packet` is 12
bytes with version 2, padding 0, extension 0, CSRC count 0 and the
configured payload type — but its **marker bit is 1, not 0**: the
second byte is `0x80 | (pt & 0x7F)`, although the adjacent comment in
the source says "M=0, PT from config" and the specification requires
marker = 0. -/
theorem rtp_header_marker_bit_bug :
    bugHeader.length = 12 ∧
    rtpVersion bugHeader = 2 ∧
    rtpPadding bugHeader = 0 ∧
    rtpExtensionFlag bugHeader = 0 ∧
    rtpCsrcCount bugHeader = 0 ∧
    rtpPayloadTypeField bugHeader = 0 ∧
    rtpMarker bugHeader = 1 ∧
    rtpMarker bugHeader ≠ 0 := by decide

/-! ### SIP REGISTER lifecycle (`app/sip/client.py`)

`_generate_call_id` hashes `local_ip ++ local_port ++ call_id_counter`
with a counter incremented on every call, so distinct counters give
distinct Call-IDs; the model identifies a Call-ID with its counter
value. -/

/-- Registration-relevant mutable state of `SIPClient`.  `sent` records
the `(Call-ID, CSeq)` of every REGISTER request sent, in order. -/
structure SIPRegState where
  cseq : Nat
  callIdCounter : Nat
  registrationCallId : Option Nat
  authRetryCount : Nat
  sent : List (Nat × Nat)
  deriving Repr, DecidableEq

/-- `SIPClient.__init__`: `cseq = 1`, counter 0, no registration
Call-ID. -/
def initRegState : SIPRegState :=
  { cseq := 1, callIdCounter := 0, registrationCallId := none
    authRetryCount := 0, sent := [] }

/-- `SIPClient._generate_call_id`: bump the counter and return the fresh
Call-ID. -/
def genCallId (s : SIPRegState) : Nat × SIPRegState :=
  (s.callIdCounter + 1, { s with callIdCounter := s.callIdCounter + 1 })

/-- `SIPClient.register` (client.py lines 213-290).  Without auth it
generates a new Call-ID and resets `cseq` to 1 and the retry counter to
0; with auth it reuses `registration_call_id` (generating one only if
absent).  In both cases it sends one REGISTER with the current `cseq`
and then increments `cseq`. -/
def sipRegister (withAuth : Bool) (s : SIPRegState) : SIPRegState :=
  if withAuth = false then
    let fresh := genCallId s
    let s1 := { fresh.2 with registrationCallId := some fresh.1 }
    let s2 := { s1 with cseq := 1, authRetryCount := 0 }
    { s2 with cseq := s2.cseq + 1, sent := s2.sent ++ [(fresh.1, s2.cseq)] }
  else
    match s.registrationCallId with
    | some cid =>
      { s with cseq := s.cseq + 1, sent := s.sent ++ [(cid, s.cseq)] }
    | none =>
      let fresh := genCallId s
      let s2 := { fresh.2 with registrationCallId := some fresh.1 }
      { s2 with cseq := s2.cseq + 1, sent := s2.sent ++ [(fresh.1, s2.cseq)] }

/-- `SIPClient.unregister` (client.py lines 292-317): fresh Call-ID, the
current `cseq`, `Expires: 0`. -/
def sipUnregister (s : SIPRegState) : SIPRegState :=
  let fresh := genCallId s
  { fresh.2 with cseq := fresh.2.cseq + 1, sent := fresh.2.sent ++ [(fresh.1, fresh.2.cseq)] }

/-- The REGISTER-sending entry points of the user agent over its
lifetime: initial registrations and refreshes without cached auth,
authentication retries and auth-carrying refreshes, and the final
unregister. -/
inductive RegEvent where
  | registerNoAuth
  | registerAuth
  | unregister
  deriving Repr, DecidableEq

def regStep (s : SIPRegState) : RegEvent → SIPRegState
  | .registerNoAuth => sipRegister false s
  | .registerAuth => sipRegister true s
  | .unregister => sipUnregister s

/-- Run the user agent from boot through a sequence of REGISTER events. -/
def runReg (evs : List RegEvent) : SIPRegState := evs.foldl regStep initRegState

/-- Inductive invariant: Call-IDs never exceed the counter, every sent
request on the current registration Call-ID has CSeq below the current
one, and within any one Call-ID the recorded CSeqs are strictly
increasing. -/
def RegInv (s : SIPRegState) : Prop :=
  (∀ p ∈ s.sent, p.1 ≤ s.callIdCounter) ∧
  (∀ cid, s.registrationCallId = some cid → cid ≤ s.callIdCounter) ∧
  (∀ p ∈ s.sent, s.registrationCallId = some p.1 → p.2 < s.cseq) ∧
  s.sent.Pairwise (fun a b => a.1 = b.1 → a.2 < b.2)

theorem regInv_init : RegInv initRegState := by
  refine ⟨?_, ?_, ?_, ?_⟩ <;> simp [initRegState]

theorem sipRegister_false (s : SIPRegState) :
    sipRegister false s =
      ⟨2, s.callIdCounter + 1, some (s.callIdCounter + 1), 0,
        s.sent ++ [(s.callIdCounter + 1, 1)]⟩ := rfl

theorem sipRegister_true_some (s : SIPRegState) (cid : Nat)
    (h : s.registrationCallId = some cid) :
    sipRegister true s =
      ⟨s.cseq + 1, s.callIdCounter, some cid, s.authRetryCount,
        s.sent ++ [(cid, s.cseq)]⟩ := by
  simp [sipRegister, h]

theorem sipRegister_true_none (s : SIPRegState)
    (h : s.registrationCallId = none) :
    sipRegister true s =
      ⟨s.cseq + 1, s.callIdCounter + 1, some (s.callIdCounter + 1),
        s.authRetryCount, s.sent ++ [(s.callIdCounter + 1, s.cseq)]⟩ := by
  simp [sipRegister, genCallId, h]

theorem sipUnregister_eq (s : SIPRegState) :
    sipUnregister s =
      ⟨s.cseq + 1, s.callIdCounter + 1, s.registrationCallId,
        s.authRetryCount, s.sent ++ [(s.callIdCounter + 1, s.cseq)]⟩ := rfl

/-- The invariant survives sending one more REGISTER `(cidN, cN)` into a
state with new counters, provided the new pair respects freshness and
the CSeq bounds. -/
theorem RegInv.append {s : SIPRegState} (h : RegInv s)
    {cidN cN cseqN counterN retryN : Nat} {regN : Option Nat}
    (hcounter : ∀ p ∈ s.sent, p.1 ≤ counterN)
    (hcidN : cidN ≤ counterN)
    (hregN : ∀ cid, regN = some cid → cid ≤ counterN)
    (hcross : ∀ p ∈ s.sent, p.1 = cidN → p.2 < cN)
    (hold : ∀ p ∈ s.sent, regN = some p.1 → p.2 < cseqN)
    (hnewpair : regN = some cidN → cN < cseqN) :
    RegInv ⟨cseqN, counterN, regN, retryN, s.sent ++ [(cidN, cN)]⟩ := by
  obtain ⟨h1, h2, h3, h4⟩ := h
  refine ⟨?_, ?_, ?_, ?_⟩
  · intro p hp
    rcases List.mem_append.mp hp with hp | hp
    · exact hcounter p hp
    · simp only [List.mem_singleton] at hp
      subst hp
      exact hcidN
  · exact hregN
  · intro p hp hreg
    rcases List.mem_append.mp hp with hp | hp
    · exact hold p hp hreg
    · simp only [List.mem_singleton] at hp
      subst hp
      exact hnewpair hreg
  · rw [List.pairwise_append]
    refine ⟨h4, List.pairwise_singleton _ _, ?_⟩
    intro a ha b hb hab
    simp only [List.mem_singleton] at hb
    subst hb
    exact hcross a ha hab

theorem regInv_step (s : SIPRegState) (e : RegEvent) (h : RegInv s) :
    RegInv (regStep s e) := by
  have h1 := h.1
  have h2 := h.2.1
  have fresh_not_sent : ∀ p ∈ s.sent, p.1 ≠ s.callIdCounter + 1 := by
    intro p hp heq
    have := h1 p hp
    omega
  cases e with
  | registerNoAuth =>
    rw [show regStep s .registerNoAuth = sipRegister false s from rfl,
      sipRegister_false]
    refine h.append ?_ (le_refl _) ?_ ?_ ?_ ?_
    · intro p hp
      exact le_trans (h1 p hp) (Nat.le_succ _)
    · intro cid hcid
      injection hcid with hcid
      omega
    · intro p hp heq
      exact absurd heq (fresh_not_sent p hp)
    · intro p hp hreg
      injection hreg with hreg
      exact absurd hreg.symm (fresh_not_sent p hp)
    · intro _
      omega
  | registerAuth =>
    rcases hreg : s.registrationCallId with _ | cid
    · rw [show regStep s .registerAuth = sipRegister true s from rfl,
        sipRegister_true_none s hreg]
      refine h.append ?_ (le_refl _) ?_ ?_ ?_ ?_
      · intro p hp
        exact le_trans (h1 p hp) (Nat.le_succ _)
      · intro cid hcid
        injection hcid with hcid
        omega
      · intro p hp heq
        exact absurd heq (fresh_not_sent p hp)
      · intro p hp hr
        injection hr with hr
        exact absurd hr.symm (fresh_not_sent p hp)
      · intro _
        omega
    · rw [show regStep s .registerAuth = sipRegister true s from rfl,
        sipRegister_true_some s cid hreg]
      refine h.append ?_ (h2 cid hreg) ?_ ?_ ?_ ?_
      · exact h1
      · intro cid' hcid
        injection hcid with hcid
        subst hcid
        exact h2 _ hreg
      · intro p hp heq
        exact h.2.2.1 p hp (by rw [hreg, heq])
      · intro p hp hr
        injection hr with hr
        have := h.2.2.1 p hp (by rw [hreg, hr])
        omega
      · intro _
        omega
  | unregister =>
    rw [show regStep s .unregister = sipUnregister s from rfl, sipUnregister_eq]
    refine h.append ?_ (le_refl _) ?_ ?_ ?_ ?_
    · intro p hp
      exact le_trans (h1 p hp) (Nat.le_succ _)
    · intro cid hcid
      have := h2 cid hcid
      omega
    · intro p hp heq
      exact absurd heq (fresh_not_sent p hp)
    · intro p hp hr
      have := h.2.2.1 p hp hr
      omega
    · intro hr
      have := h2 _ hr
      omega

theorem regInv_run (evs : List RegEvent) : RegInv (runReg evs) := by
  suffices h : ∀ (l : List RegEvent) (s : SIPRegState), RegInv s →
      RegInv (l.foldl regStep s) by
    exact h evs initRegState regInv_init
  intro l
  induction l with
  | nil => intro s hs; exact hs
  | cons e rest ih =>
    intro s hs
    exact ih (regStep s e) (regInv_step s e hs)

/-- **C4** (amended).  Over any lifetime of the user agent, the CSeq of
REGISTER requests is strictly increasing **within each Call-ID**: any
two REGISTERs carrying the same Call-ID have strictly increasing CSeq
in send order.  (Across Call-IDs it is not monotone: `register` without
auth resets `cseq` to 1 together with a fresh Call-ID.) -/
theorem sip_register_cseq_per_callid (evs : List RegEvent) :
    (runReg evs).sent.Pairwise (fun a b => a.1 = b.1 → a.2 < b.2) :=
  (regInv_run evs).2.2.2

/-- Counterexample to C4 as stated: two plain registrations both carry
CSeq 1 (on different Call-IDs), so the CSeq sequence is not strictly
increasing over the lifetime of the user agent. -/
theorem sip_register_cseq_lifetime_cex :
    (runReg [.registerNoAuth, .registerNoAuth]).sent = [(1, 1), (2, 1)] ∧
    ¬ (runReg [.registerNoAuth, .registerNoAuth]).sent.Pairwise
        (fun a b => a.2 < b.2) := by
  constructor
  · rfl
  · intro h
    rw [show (runReg [.registerNoAuth, .registerNoAuth]).sent = [(1, 1), (2, 1)]
      from rfl] at h
    have h2 := (List.pairwise_cons.mp h).1 (2, 1) (List.mem_singleton.mpr rfl)
    simp at h2

/-! ### Digest authentication (`app/sip/client.py`)

MD5 is an external hash; the functions below are parameterized over an
abstract `md5 : String → String` standing for
`hashlib.md5(x.encode()).hexdigest()`. -/

/-- `needle` occurs as a contiguous run inside `hay`. -/
def listIsInfixOf : List Char → List Char → Bool
  | needle, [] => needle.isEmpty
  | needle, c :: t => needle.isPrefixOf (c :: t) || listIsInfixOf needle t

/-- Python `needle in hay` on strings. -/
def pySubstr (needle hay : String) : Bool :=
  listIsInfixOf needle.toList hay.toList

/-- Python truthiness of an `Optional[str]`: `None` and `""` are falsy. -/
def pyTruthyOptStr : Option String → Bool
  | none => false
  | some s => s != ""

/-- The `([^"]+)"` part of the digest-challenge regexes: a nonempty
maximal run of non-quote characters that must be followed by a closing
quote. -/
def captureQuoted (cs : List Char) : Option String :=
  let pre := cs.takeWhile (fun c => c ≠ '"')
  let post := cs.dropWhile (fun c => c ≠ '"')
  if pre ≠ [] ∧ post ≠ [] then some (String.mk pre) else none

/-- `re.search` of `pat("[^"]+")`: scan left to right; at the first
position where the literal prefix matches and a nonempty quoted capture
follows, return the capture; otherwise keep scanning (regex semantics:
a failed capture at one position does not stop the search). -/
def searchParam (pat : List Char) : List Char → Option String
  | [] => none
  | c :: rest =>
    if pat.isPrefixOf (c :: rest) then
      match captureQuoted ((c :: rest).drop pat.length) with
      | some r => some r
      | none => searchParam pat rest
    else searchParam pat rest

/-- `re.search(r'KEY="([^"]+)"', www_auth)` as used for `realm`,
`nonce` and `opaque` in `_handle_sip_message`. -/
def parseDigestParam (key www : String) : Option String :=
  searchParam (key.toList ++ ['=', '"']) www.toList

/-- `SIPClient._calculate_digest_auth` (client.py lines 192-211):
HA1 = MD5(user:realm:password), HA2 = MD5(method:uri),
response = MD5(HA1:nonce:HA2); the header carries username, realm,
nonce, uri, response and — when present — opaque.  (The Python
signature also receives `cseq` and `call_id`, which it never uses.) -/
def calculateDigestAuth (md5 : String → String)
    (method uri realm nonce username password : String)
    (opq : Option String) : String :=
  let ha1 := md5 (username ++ ":" ++ realm ++ ":" ++ password)
  let ha2 := md5 (method ++ ":" ++ uri)
  let response := md5 (ha1 ++ ":" ++ nonce ++ ":" ++ ha2)
  let base := "Digest username=\"" ++ username ++ "\", realm=\"" ++ realm ++
    "\", nonce=\"" ++ nonce ++ "\", uri=\"" ++ uri ++
    "\", response=\"" ++ response ++ "\""
  match opq with
  | some o => base ++ ", opaque=\"" ++ o ++ "\""
  | none => base

/-- Digest-authentication state of `SIPClient`. -/
structure AuthState where
  authRealm : Option String
  authNonce : Option String
  authOpq : Option String
  authRetryCount : Nat
  deriving Repr, DecidableEq

/-- The Authorization header that `register(with_auth=True)` (client.py
lines 254-261) attaches: present iff the cached realm and nonce are
truthy, computed by `_calculate_digest_auth` over method `REGISTER` and
uri `sip:<server>`. -/
def registerAuthHeader (md5 : String → String)
    (username password server : String) (st : AuthState) : Option String :=
  if pyTruthyOptStr st.authRealm && pyTruthyOptStr st.authNonce then
    some (calculateDigestAuth md5 "REGISTER" ("sip:" ++ server)
      (st.authRealm.getD "") (st.authNonce.getD "") username password
      st.authOpq)
  else none

/-- The 401-REGISTER branch of `SIPClient._handle_sip_message` (client.py
lines 957-1008): when the challenge is a parsable Digest, cache realm,
nonce and opaque, bump the retry counter, and — while fewer than three
attempts — retry `register(with_auth=True)`.  The second component is
the Authorization header of the retry, `none` when no retry is sent. -/
def handleRegister401 (md5 : String → String)
    (username password server : String) (st : AuthState) (wwwAuth : String) :
    AuthState × Option String :=
  if pySubstr "Digest" wwwAuth then
    match parseDigestParam "realm" wwwAuth, parseDigestParam "nonce" wwwAuth with
    | some r, some n =>
      let st1 : AuthState :=
        ⟨some r, some n, parseDigestParam "opaque" wwwAuth, st.authRetryCount + 1⟩
      if st1.authRetryCount < 3 then
        (st1, registerAuthHeader md5 username password server st1)
      else (st1, none)
    | _, _ => (st, none)
  else (st, none)

/-- **C5.**  On a 401 digest challenge whose `WWW-Authenticate` parses
to realm `r` and nonce `n` (both captures are nonempty by construction
of the regex), and while the retry budget allows it, the REGISTER retry
carries an Authorization header with exactly the username, realm `r`,
nonce `n`, the request uri, response =
MD5(MD5(user:r:password) : n : MD5("REGISTER":uri)), and the opaque
value when the challenge supplied one. -/
theorem register_401_digest_retry (md5 : String → String)
    (username password server : String) (st : AuthState)
    (wwwAuth r n : String)
    (hd : pySubstr "Digest" wwwAuth = true)
    (hr : parseDigestParam "realm" wwwAuth = some r)
    (hn : parseDigestParam "nonce" wwwAuth = some n)
    (hrne : r ≠ "") (hnne : n ≠ "")
    (hretry : st.authRetryCount + 1 < 3) :
    (handleRegister401 md5 username password server st wwwAuth).2 =
      some ("Digest username=\"" ++ username ++ "\", realm=\"" ++ r ++
        "\", nonce=\"" ++ n ++ "\", uri=\"" ++ ("sip:" ++ server) ++
        "\", response=\"" ++
        md5 (md5 (username ++ ":" ++ r ++ ":" ++ password) ++ ":" ++ n ++ ":" ++
          md5 ("REGISTER" ++ ":" ++ ("sip:" ++ server))) ++
        (match parseDigestParam "opaque" wwwAuth with
         | some o => "\", opaque=\"" ++ o ++ "\""
         | none => "\"")) := by
  simp only [handleRegister401, hd, if_true, hr, hn, if_pos hretry]
  simp only [registerAuthHeader, pyTruthyOptStr, Option.getD_some]
  rw [if_pos (by simp [bne_iff_ne, hrne, hnne])]
  simp only [calculateDigestAuth, Option.some.injEq]
  rcases parseDigestParam "opaque" wwwAuth with _ | o <;>
    simp [String.append_assoc]

/-- Witness for C5: the spec's own scenario — challenge
realm="fritz.box", nonce="abc123", no opaque — with the identity
function standing in for MD5, user "user", password "pw", registrar
"registrar". -/
theorem register_401_digest_retry_witness :
    (handleRegister401 (fun s => s) "user" "pw" "registrar"
      ⟨none, none, none, 0⟩ "Digest realm=\"fritz.box\", nonce=\"abc123\"").2 =
    some ("Digest username=\"user\", realm=\"fritz.box\", " ++
      "nonce=\"abc123\", uri=\"sip:registrar\", " ++
      "response=\"user:fritz.box:pw:abc123:REGISTER:sip:registrar\"") := by
  rw [register_401_digest_retry (fun s => s) "user" "pw" "registrar"
    ⟨none, none, none, 0⟩ "Digest realm=\"fritz.box\", nonce=\"abc123\""
    "fritz.box" "abc123" (by decide) (by decide) (by decide)
    (by decide) (by decide) (by decide)]
  rfl

/-! ### SDP codec selection (`app/sip/client.py` `_send_200_ok`) -/

/-- `remote_sdp.get(pt, \x7b\x7d).get("name", "")`: the rtpmap name
recorded for a payload type, defaulting to the empty string. -/
def codecNameOf (names : List (String × String)) (pt : String) : String :=
  ((names.find? (fun p => p.1 == pt)).map (·.2)).getD ""

/-- `"PCMU" in codec_name or codec_name == "PCMU"`. -/
def pcmuMatch (codecName : String) : Bool :=
  pySubstr "PCMU" codecName || codecName == "PCMU"

/-- Codec selection of `_send_200_ok` (client.py lines 666-700): prefer
payload type "0"; otherwise the first offered payload type whose rtpmap
name matches PCMU; otherwise default to "0". -/
def selectPayloadType (codecs : List String)
    (names : List (String × String)) : String :=
  if codecs.contains "0" then "0"
  else
    match codecs.find? (fun pt => pcmuMatch (codecNameOf names pt)) with
    | some pt => pt
    | none => "0"

/-- The codec-relevant outcome of `_send_200_ok`: the payload type
answered, the rtpmap label put in the SDP, and the sample rate recorded
in the dialog (`active_calls[call_id]["sample_rate"]`). -/
structure SdpAnswer where
  codecPt : String
  codecName : String
  sampleRate : Nat
  deriving Repr, DecidableEq

/-- `_send_200_ok` (client.py lines 658-760), restricted to codec
negotiation: select the payload type, label the SDP `PCMU/16000` for
payload type 121 and `PCMU/8000` otherwise (`int(preferred_pt)` raises
on a non-numeric token, modelled as `.error`), and record sample rate
8000 in the dialog in every case. -/
def send200OkCodec (codecs : List String) (names : List (String × String)) :
    Except String SdpAnswer :=
  let pt := selectPayloadType codecs names
  match pyIntOfString pt with
  | none => .error ("invalid literal for int: " ++ pt)
  | some ptInt =>
    let codecName := if ptInt = 121 then "PCMU/16000" else "PCMU/8000"
    .ok { codecPt := pt, codecName := codecName, sampleRate := 8000 }

/-- **C6.**  Whenever `_send_200_ok` produces an answer: payload type 0
is selected when 0 is among the offered types; otherwise the first
offered payload type whose rtpmap name contains "PCMU" is selected; and
the sample rate recorded in the dialog is 8000 in every case,
regardless of the rates advertised in the offer. -/
theorem sdp_codec_selection (codecs : List String)
    (names : List (String × String)) (ans : SdpAnswer)
    (hok : send200OkCodec codecs names = .ok ans) :
    (codecs.contains "0" = true → ans.codecPt = "0") ∧
    (codecs.contains "0" = false →
      ∀ pt, codecs.find? (fun q => pcmuMatch (codecNameOf names q)) = some pt →
        ans.codecPt = pt) ∧
    ans.sampleRate = 8000 := by
  simp only [send200OkCodec] at hok
  rcases hint : pyIntOfString (selectPayloadType codecs names) with _ | ptInt
  · rw [hint] at hok
    exact absurd hok (by simp)
  · rw [hint] at hok
    simp only [Except.ok.injEq] at hok
    subst hok
    refine ⟨?_, ?_, rfl⟩
    · intro hz
      show selectPayloadType codecs names = "0"
      unfold selectPayloadType
      rw [if_pos hz]
    · intro hz pt hfind
      show selectPayloadType codecs names = pt
      unfold selectPayloadType
      rw [if_neg (by rw [hz]; simp), hfind]

/-- Witness for C6: offers `[8, 0]` (payload type 0 present) and
`[8, 121]` with `121 ↦ PCMU` (first PCMU match), both recorded at
8000 Hz. -/
theorem sdp_codec_selection_witness :
    (SdpAnswer.mk "0" "PCMU/8000" 8000).codecPt = "0" ∧
    (SdpAnswer.mk "121" "PCMU/16000" 8000).codecPt = "121" ∧
    (SdpAnswer.mk "121" "PCMU/16000" 8000).sampleRate = 8000 :=
  ⟨(sdp_codec_selection ["8", "0"] [] ⟨"0", "PCMU/8000", 8000⟩ rfl).1
     (by decide),
   (sdp_codec_selection ["8", "121"] [("121", "PCMU")]
     ⟨"121", "PCMU/16000", 8000⟩ rfl).2.1 (by decide) "121" (by decide),
   (sdp_codec_selection ["8", "121"] [("121", "PCMU")]
     ⟨"121", "PCMU/16000", 8000⟩ rfl).2.2⟩

/-! ### Audio adapter (`app/bridge/audio_adapter.py`)

The resampling pipeline of lines 48-52 and 67-71 (`np.frombuffer` →
float32 → `resampy.resample` → clip → int16 → `tobytes`) lives in
external numpy/resampy float code; the adapter is parameterized over an
abstract `resampleBytes : bytes → srcRate → dstRate → bytes` standing
for that pipeline, together with its length law
`|out| = (|in| / 2) · dst / src · 2` (resampy output length for the
exact 1:3 and 2:3 ratios used here, times two bytes per int16 sample). -/

/-- `OPENAI_SAMPLE_RATE = 24000`. -/
def OPENAI_SAMPLE_RATE : Nat := 24000

/-- `pcm16_frame_size_sip = (sample_rate * FRAME_SIZE_MS * 2) // 1000`
with `FRAME_SIZE_MS = 20`. -/
def pcm16FrameSizeSip (sampleRate : Nat) : Nat := sampleRate * 20 * 2 / 1000

/-- `pcm16_frame_size_24k = 960`. -/
def pcm16FrameSize24k : Nat := 960

/-- `AudioAdapter.get_uplink` (audio_adapter.py lines 36-62): resample
one dequeued SIP-rate frame to 24 kHz, or return 960 bytes of silence
on the 20 ms timeout.  (The size-check prints on lines 43-45 and 54-56
do not change the value.) -/
def getUplink (resampleBytes : List Nat → Nat → Nat → List Nat)
    (sipRate : Nat) (dequeued : Option (List Nat)) : List Nat :=
  match dequeued with
  | some audioSip => resampleBytes audioSip sipRate OPENAI_SAMPLE_RATE
  | none => List.replicate pcm16FrameSize24k 0

/-- `AudioAdapter.get_downlink` (audio_adapter.py lines 82-90): the
dequeued frame, or a SIP-rate silence frame on the 20 ms timeout. -/
def getDownlink (sipRate : Nat) (dequeued : Option (List Nat)) : List Nat :=
  match dequeued with
  | some f => f
  | none => List.replicate (pcm16FrameSizeSip sipRate) 0

/-- The `while len(buffer) ≥ size` slicing loop of `send_downlink`
(audio_adapter.py lines 77-80), fuelled for structural recursion: each
iteration removes `size ≥ 1` bytes, so `buf.length` iterations always
suffice.  Returns the remaining accumulator and the emitted frames in
order.  (For `size = 0` the Python loop would not terminate; the fuel
then runs out, but every rate used gives `size > 0`.) -/
def splitFramesAux (fuel size : Nat) (buf : List Nat) :
    List Nat × List (List Nat) :=
  match fuel with
  | 0 => (buf, [])
  | fuel + 1 =>
    if 0 < size ∧ size ≤ buf.length then
      let rest := splitFramesAux fuel size (buf.drop size)
      (rest.1, buf.take size :: rest.2)
    else (buf, [])

/-- `AudioAdapter.send_downlink` (audio_adapter.py lines 64-80):
resample the 24 kHz chunk to SIP rate, extend the byte accumulator, and
release every whole SIP-rate frame, in order. -/
def sendDownlink (resampleBytes : List Nat → Nat → Nat → List Nat)
    (sipRate : Nat) (buffer chunk : List Nat) :
    List Nat × List (List Nat) :=
  let audioSip := resampleBytes chunk OPENAI_SAMPLE_RATE sipRate
  let buf := buffer ++ audioSip
  splitFramesAux buf.length (pcm16FrameSizeSip sipRate) buf

/-- Every frame the slicing loop releases has exactly the frame size. -/
theorem splitFramesAux_frame_sizes :
    ∀ (fuel size : Nat) (buf f : List Nat),
      f ∈ (splitFramesAux fuel size buf).2 → f.length = size := by
  intro fuel
  induction fuel with
  | zero =>
    intro size buf f hf
    simp [splitFramesAux] at hf
  | succ n ih =>
    intro size buf f hf
    simp only [splitFramesAux] at hf
    by_cases hc : 0 < size ∧ size ≤ buf.length
    · rw [if_pos hc] at hf
      simp only [List.mem_cons] at hf
      rcases hf with hf | hf
      · subst hf
        rw [List.length_take]
        exact Nat.min_eq_left hc.2
      · exact ih size _ f hf
    · rw [if_neg hc] at hf
      simp at hf

/-- **C8.**  Under the precondition that every frame pushed into the
uplink queue is exactly `sip_rate × 40 / 1000` bytes (320 at 8 kHz, 640
at 16 kHz) and given the resampler's length law: `get_uplink` returns
exactly 960 bytes, and an all-zero 960-byte frame on timeout; the
downlink accumulator only ever releases frames of exactly
`pcm16_frame_size_sip` bytes, so `get_downlink` returns exactly that
many bytes for queued frames, and an all-zero frame of that size on
timeout. -/
theorem audio_adapter_frame_law
    (resampleBytes : List Nat → Nat → Nat → List Nat)
    (hlen : ∀ b r1 r2, (resampleBytes b r1 r2).length = b.length / 2 * r2 / r1 * 2)
    (sipRate : Nat) (hrate : sipRate = 8000 ∨ sipRate = 16000) :
    (∀ b, b.length = pcm16FrameSizeSip sipRate →
      (getUplink resampleBytes sipRate (some b)).length = 960) ∧
    getUplink resampleBytes sipRate none = List.replicate 960 0 ∧
    (∀ buffer chunk f, f ∈ (sendDownlink resampleBytes sipRate buffer chunk).2 →
      f.length = pcm16FrameSizeSip sipRate) ∧
    (∀ buffer chunk f, f ∈ (sendDownlink resampleBytes sipRate buffer chunk).2 →
      (getDownlink sipRate (some f)).length = pcm16FrameSizeSip sipRate) ∧
    getDownlink sipRate none = List.replicate (pcm16FrameSizeSip sipRate) 0 := by
  have hdl : ∀ buffer chunk f,
      f ∈ (sendDownlink resampleBytes sipRate buffer chunk).2 →
      f.length = pcm16FrameSizeSip sipRate := by
    intro buffer chunk f hf
    exact splitFramesAux_frame_sizes _ _ _ f hf
  refine ⟨?_, rfl, hdl, ?_, rfl⟩
  · intro b hb
    show (resampleBytes b sipRate OPENAI_SAMPLE_RATE).length = 960
    rw [hlen, hb]
    rcases hrate with h | h <;> subst h <;> norm_num [pcm16FrameSizeSip,
      OPENAI_SAMPLE_RATE]
  · intro buffer chunk f hf
    exact hdl buffer chunk f hf

/-- A resampler satisfying the length law, for the witness. -/
def silenceResample (b : List Nat) (r1 r2 : Nat) : List Nat :=
  List.replicate (b.length / 2 * r2 / r1 * 2) 0

set_option maxRecDepth 40000 in
/-- Witness for C8 at 8 kHz: a 320-byte pushed frame pulls as 960
bytes; timeouts give exact-size silence; a concrete `send_downlink` of
a 1920-byte 24 kHz chunk releases only 320-byte frames. -/
theorem audio_adapter_frame_law_witness :
    (getUplink silenceResample 8000 (some (List.replicate 320 1))).length = 960 ∧
    getUplink silenceResample 8000 none = List.replicate 960 0 ∧
    (List.replicate 320 0).length = pcm16FrameSizeSip 8000 ∧
    getDownlink 8000 none = List.replicate (pcm16FrameSizeSip 8000) 0 := by
  have h := audio_adapter_frame_law silenceResample
    (by intro b r1 r2; simp [silenceResample]) 8000 (Or.inl rfl)
  refine ⟨h.1 (List.replicate 320 1) (by decide), h.2.1, ?_, h.2.2.2.2⟩
  exact h.2.2.1 [] (List.replicate 1920 1) (List.replicate 320 0) (by decide)

end HaSip
